import Mathlib

/-
Verification development for the streaming WAV playback engine
(esp_main/main/speaker.cpp). The stateful C functions are embedded as pure
Lean functions over an explicit engine state (the two globals: the playback
speed and the I2S channel handle) and an environment describing the
collaborators (SD card, file system, allocator, I2S sink). Machine floats
are modelled by exact rationals; the C cast (uint32_t)(x) of a nonnegative
value is floor followed by toNat.
-/

namespace Speaker

/-- Buffer size for reading the wav file, in samples (AUDIO_BUFFER). -/
def AUDIO_BUFFER : ℕ := 2048

/-- Minimum supported PDM sample rate (I2S_PDM_MIN_RATE). -/
def I2S_PDM_MIN_RATE : ℕ := 8000

/-- Maximum supported PDM sample rate (I2S_PDM_MAX_RATE). -/
def I2S_PDM_MAX_RATE : ℕ := 48000

/-- The esp_err_t values that play_wav can produce. -/
inductive EspErr where
  | ok
  | fail
  | invalidArg
  | notSupported
  | noMem
deriving DecidableEq

/-- The i2s_slot_mode_t values used by the engine. -/
inductive SlotMode where
  | mono
  | stereo
deriving DecidableEq

/-- The two process-wide globals of speaker.cpp: playback_speed and
whether tx_handle currently holds a live channel. -/
structure EngineState where
  playback_speed : ℚ
  tx_active : Bool
deriving DecidableEq

/-- set_playback_speed from speaker.cpp lines 292-307: values below or equal
to zero are replaced by 1.0, values above 4.0 are clamped to 4.0, values
below 0.25 are clamped to 0.25, otherwise the value is stored unchanged. -/
def set_playback_speed (speed : ℚ) (st : EngineState) : EngineState :=
  if speed ≤ 0 then { st with playback_speed := 1 }
  else if 4 < speed then { st with playback_speed := 4 }
  else if speed < 1/4 then { st with playback_speed := 1/4 }
  else { st with playback_speed := speed }

/-- get_playback_speed from speaker.cpp lines 310-313. -/
def get_playback_speed (st : EngineState) : ℚ :=
  st.playback_speed

/-- Channel count parsed from header bytes 22-23, little endian
(speaker.cpp line 139). -/
def parse_channels (h : List ℕ) : ℕ :=
  h.getD 22 0 + 256 * h.getD 23 0

/-- Sample rate parsed from header bytes 24-27, little endian
(speaker.cpp line 141). -/
def parse_rate (h : List ℕ) : ℕ :=
  h.getD 24 0 + 256 * h.getD 25 0 + 65536 * h.getD 26 0 + 16777216 * h.getD 27 0

/-- Bits per sample parsed from header bytes 34-35, little endian
(speaker.cpp line 143). -/
def parse_bits (h : List ℕ) : ℕ :=
  h.getD 34 0 + 256 * h.getD 35 0

/-- The full stream descriptor extracted from the 44 byte header:
channel count, sample rate, bits per sample. -/
def parse_header (h : List ℕ) : ℕ × ℕ × ℕ :=
  (parse_channels h, parse_rate h, parse_bits h)

/-- Slot mode selection of speaker.cpp line 179: stereo exactly when the
parsed channel count equals 2, otherwise mono. -/
def slot_mode_of (channels : ℕ) : SlotMode :=
  if channels = 2 then SlotMode.stereo else SlotMode.mono

/-- Rate plan of speaker.cpp lines 153-173: adjusted_sample_rate is the C
cast (uint32_t)(sample_rate * playback_speed), which truncates; if it
exceeds I2S_PDM_MAX_RATE the frame skip factor becomes
adjusted / I2S_PDM_MAX_RATE and the rate is set to the maximum; if it is
below I2S_PDM_MIN_RATE the rate is raised to the minimum with no skip;
otherwise it is used as is. Returns (sink rate, frame skip factor). -/
def rate_plan (sample_rate : ℕ) (speed : ℚ) : ℕ × ℚ :=
  if I2S_PDM_MAX_RATE < (⌊(sample_rate : ℚ) * speed⌋).toNat then
    (I2S_PDM_MAX_RATE, (((⌊(sample_rate : ℚ) * speed⌋).toNat : ℚ)) / (I2S_PDM_MAX_RATE : ℚ))
  else if (⌊(sample_rate : ℚ) * speed⌋).toNat < I2S_PDM_MIN_RATE then
    (I2S_PDM_MIN_RATE, 1)
  else
    ((⌊(sample_rate : ℚ) * speed⌋).toNat, 1)

/-- Rate plan as the specification words it: the sink rate is
clamp(round(desiredRateHz), MIN, MAX) and the decimation factor is
desiredRateHz / MAX when desiredRateHz exceeds MAX, else 1.0. Written from
the spec only, for comparison with rate_plan. -/
def ratePlanSpec (sample_rate : ℕ) (speed : ℚ) : ℕ × ℚ :=
  (min I2S_PDM_MAX_RATE (max I2S_PDM_MIN_RATE (round ((sample_rate : ℚ) * speed)).toNat),
   if (I2S_PDM_MAX_RATE : ℚ) < (sample_rate : ℚ) * speed then
     ((sample_rate : ℚ) * speed) / (I2S_PDM_MAX_RATE : ℚ)
   else 1)

/-- One log entry per iteration of the fractional decimation loop: the
output write cursor, the input index read, whether the bounds guard held,
and the value found at the input index at that moment. -/
structure IterLog where
  w : ℕ
  idx : ℕ
  guard : Bool
  val : ℤ
deriving DecidableEq

/-- The fractional decimation while loop of speaker.cpp lines 215-222:
while frame_position is below the sample count, take the integral part as
input index, and when it is in bounds copy buf[input_index] to
buf[samples_to_write] in place and advance the write cursor; then advance
frame_position by the frame skip factor. The fuel argument bounds the
number of iterations; fuel equal to the sample count suffices whenever the
skip factor is at least 1. Returns the mutated buffer, the write cursor,
and the per-iteration log. -/
def frameLoop (fsr : ℚ) (n : ℕ) : ℕ → ℚ → ℕ → List ℤ → List ℤ × ℕ × List IterLog
  | 0, _, w, arr => (arr, w, [])
  | fuel + 1, fp, w, arr =>
    if fp < (n : ℚ) then
      if (⌊fp⌋).toNat < n then
        let r := frameLoop fsr n fuel (fp + fsr) (w + 1)
          (arr.set w (arr.getD (⌊fp⌋).toNat 0))
        (r.1, r.2.1, ⟨w, (⌊fp⌋).toNat, true, arr.getD (⌊fp⌋).toNat 0⟩ :: r.2.2)
      else
        let r := frameLoop fsr n fuel (fp + fsr) w arr
        (r.1, r.2.1, ⟨w, (⌊fp⌋).toNat, false, arr.getD (⌊fp⌋).toNat 0⟩ :: r.2.2)
    else (arr, w, [])

/-- Per chunk processing of speaker.cpp lines 204-227: when the frame skip
factor exceeds 1 the chunk is compacted in place by the fractional
decimation loop and the first samples_to_write entries are what gets
written to the sink, with samples_played increased by the written count
and samples_skipped by the rest; otherwise the chunk is passed through
verbatim and the counters are untouched. Returns (samples written to the
sink, played delta, skipped delta). -/
def processChunk (chunk : List ℤ) (fsr : ℚ) : List ℤ × ℕ × ℕ :=
  if 1 < fsr then
    ((frameLoop fsr chunk.length chunk.length 0 0 chunk).1.take
       (frameLoop fsr chunk.length chunk.length 0 0 chunk).2.1,
     (frameLoop fsr chunk.length chunk.length 0 0 chunk).2.1,
     chunk.length - (frameLoop fsr chunk.length chunk.length 0 0 chunk).2.1)
  else (chunk, 0, 0)

/-- Result of the streaming loop: chunks delivered to the sink, cumulative
samples_played and samples_skipped, and whether an i2s write failed. -/
structure StreamOut where
  written : List (List ℤ)
  played : ℕ
  skipped : ℕ
  wfail : Bool
deriving DecidableEq

/-- The read, decimate, write loop of speaker.cpp lines 204-241: process
chunks in order until a read returns no samples; each chunk is decimated
when needed and handed to i2s_channel_write; a failed write breaks out of
the loop at once (counters were already updated for that chunk, which did
not reach the sink). -/
def streamLoop (fsr : ℚ) (writeOk : ℕ → Bool) : List (List ℤ) → ℕ → StreamOut
  | [], _ => ⟨[], 0, 0, false⟩
  | chunk :: rest, i =>
    if chunk.length = 0 then ⟨[], 0, 0, false⟩
    else
      if writeOk i then
        ⟨(processChunk chunk fsr).1 :: (streamLoop fsr writeOk rest (i + 1)).written,
         (processChunk chunk fsr).2.1 + (streamLoop fsr writeOk rest (i + 1)).played,
         (processChunk chunk fsr).2.2 + (streamLoop fsr writeOk rest (i + 1)).skipped,
         (streamLoop fsr writeOk rest (i + 1)).wfail⟩
      else ⟨[], (processChunk chunk fsr).2.1, (processChunk chunk fsr).2.2, true⟩

/-- Environment for one play_wav call: whether sd_card_init succeeds,
whether fopen succeeds, the bytes of the file available for the header
read, the successive sample chunks fread yields after the header, whether
the calloc of the chunk buffer succeeds, and which i2s writes succeed. -/
structure PlayEnv where
  sdOk : Bool
  fopenOk : Bool
  fileBytes : List ℕ
  chunks : List (List ℤ)
  callocOk : Bool
  writeOk : ℕ → Bool

/-- Observable outcome and effect trace of one play_wav call. -/
structure PlayResult where
  ret : EspErr
  fileClosed : Bool := false
  channelCreated : Bool := false
  channelReleased : Bool := false
  ratePlanDone : Bool := false
  sinkRate : ℕ := 0
  decim : ℚ := 1
  mode : SlotMode := SlotMode.mono
  written : List (List ℤ) := []
  played : ℕ := 0
  skipped : ℕ := 0
  writeFailed : Bool := false

/-- Tail of play_wav from speaker.cpp line 153 on, reached once the header
has been read and the bit depth accepted: compute the rate plan and slot
mode, create and configure the channel (i2s_setup is wrapped in
ESP_ERROR_CHECK, so a setup failure aborts rather than returns and is not
a return path), then allocate the chunk buffer. On allocation failure the
file is closed and ESP_ERR_NO_MEM returned, with no channel release (lines
183-188). Otherwise the streaming loop runs, the channel is disabled and
deleted, the buffer freed, the file closed, and ESP_OK returned (lines
190-264). -/
def play_configured (st : EngineState) (env : PlayEnv) : PlayResult × EngineState :=
  if env.callocOk = false then
    ({ ret := EspErr.noMem, fileClosed := true, channelCreated := true,
       channelReleased := false, ratePlanDone := true,
       sinkRate := (rate_plan (parse_rate env.fileBytes) st.playback_speed).1,
       decim := (rate_plan (parse_rate env.fileBytes) st.playback_speed).2,
       mode := slot_mode_of (parse_channels env.fileBytes) },
     ⟨st.playback_speed, true⟩)
  else
    ({ ret := EspErr.ok, fileClosed := true, channelCreated := true,
       channelReleased := true, ratePlanDone := true,
       sinkRate := (rate_plan (parse_rate env.fileBytes) st.playback_speed).1,
       decim := (rate_plan (parse_rate env.fileBytes) st.playback_speed).2,
       mode := slot_mode_of (parse_channels env.fileBytes),
       written := (streamLoop (rate_plan (parse_rate env.fileBytes) st.playback_speed).2
         env.writeOk env.chunks 0).written,
       played := (streamLoop (rate_plan (parse_rate env.fileBytes) st.playback_speed).2
         env.writeOk env.chunks 0).played,
       skipped := (streamLoop (rate_plan (parse_rate env.fileBytes) st.playback_speed).2
         env.writeOk env.chunks 0).skipped,
       writeFailed := (streamLoop (rate_plan (parse_rate env.fileBytes) st.playback_speed).2
         env.writeOk env.chunks 0).wfail },
     ⟨st.playback_speed, false⟩)

/-- play_wav from speaker.cpp lines 114-265. Early exits: SD card not
initialized returns ESP_FAIL with nothing opened; fopen failure returns
ESP_ERR_INVALID_ARG; a header read short of 44 bytes closes the file and
returns ESP_FAIL before any rate plan or channel work; bits per sample
different from 16 closes the file and returns ESP_ERR_NOT_SUPPORTED, again
before any rate plan or channel work. Otherwise execution continues in
play_configured. -/
def play_wav (st : EngineState) (env : PlayEnv) : PlayResult × EngineState :=
  if env.sdOk = false then ({ ret := EspErr.fail }, st)
  else if env.fopenOk = false then ({ ret := EspErr.invalidArg }, st)
  else if env.fileBytes.length < 44 then
    ({ ret := EspErr.fail, fileClosed := true }, st)
  else if parse_bits env.fileBytes ≠ 16 then
    ({ ret := EspErr.notSupported, fileClosed := true }, st)
  else play_configured st env

/-- getD is unchanged by a set at a different position. -/
lemma getD_set_ne (l : List ℤ) (i j : ℕ) (a d : ℤ) (h : i ≠ j) :
    (l.set i a).getD j d = l.getD j d := by
  simp [List.getD_eq_getElem?_getD, List.getElem?_set_ne h]

/-- Claim C3: for every input value v, setting the playback speed and
reading it back yields exactly 1 when v is nonpositive, exactly 1/4 when
0 < v < 1/4, exactly 4 when v > 4, and v itself when 1/4 <= v <= 4. -/
theorem set_speed_clamp :
    (∀ (v : ℚ) (st : EngineState), v ≤ 0 →
      get_playback_speed (set_playback_speed v st) = 1) ∧
    (∀ (v : ℚ) (st : EngineState), 0 < v → v < 1/4 →
      get_playback_speed (set_playback_speed v st) = 1/4) ∧
    (∀ (v : ℚ) (st : EngineState), 4 < v →
      get_playback_speed (set_playback_speed v st) = 4) ∧
    (∀ (v : ℚ) (st : EngineState), 1/4 ≤ v → v ≤ 4 →
      get_playback_speed (set_playback_speed v st) = v) := by
  refine ⟨?_, ?_, ?_, ?_⟩ <;>
    · intro v st
      intros
      simp only [set_playback_speed, get_playback_speed]
      split_ifs <;> first | rfl | linarith

/-- Witness for claim C3 at the concrete speeds -1, 1/8, 5 and 1/2. -/
theorem set_speed_clamp_w :
    get_playback_speed (set_playback_speed (-1) ⟨1, false⟩) = 1 ∧
    get_playback_speed (set_playback_speed (1/8) ⟨1, false⟩) = 1/4 ∧
    get_playback_speed (set_playback_speed 5 ⟨1, false⟩) = 4 ∧
    get_playback_speed (set_playback_speed (1/2) ⟨1, false⟩) = 1/2 :=
  ⟨set_speed_clamp.1 (-1) ⟨1, false⟩ (by norm_num),
   set_speed_clamp.2.1 (1/8) ⟨1, false⟩ (by norm_num) (by norm_num),
   set_speed_clamp.2.2.1 5 ⟨1, false⟩ (by norm_num),
   set_speed_clamp.2.2.2 (1/2) ⟨1, false⟩ (by norm_num) (by norm_num)⟩

/-- Claim C2 fails on the code: the C cast truncates the desired rate, it
does not round it. At sample rate 20001 and speed 3/4 the desired rate is
15000.75; the code programs the sink at 15000 Hz while the claimed
formula clamp(round(desired), 8000, 48000) gives 15001 Hz. -/
theorem rate_plan_round_cex :
    (rate_plan 20001 (3/4)).1 = 15000 ∧
    (ratePlanSpec 20001 (3/4)).1 = 15001 ∧
    rate_plan 20001 (3/4) ≠ ratePlanSpec 20001 (3/4) := by
  have h1 : (rate_plan 20001 (3/4)).1 = 15000 := by
    norm_num [rate_plan, I2S_PDM_MAX_RATE, I2S_PDM_MIN_RATE]
    rfl
  have h2 : (ratePlanSpec 20001 (3/4)).1 = 15001 := by
    norm_num [ratePlanSpec, I2S_PDM_MAX_RATE, I2S_PDM_MIN_RATE, round_eq]
    rfl
  refine ⟨h1, h2, fun hc => ?_⟩
  rw [hc] at h1
  rw [h1] at h2
  exact absurd h2 (by norm_num)

/-- Claim C2 amended: the sink rate is clamp(trunc(desired), 8000, 48000)
where trunc is truncation toward zero, and the decimation factor is
trunc(desired) / 48000 when trunc(desired) exceeds 48000, otherwise 1;
in particular a desired rate below 8000 is clamped up to 8000 with no
decimation compensation. -/
theorem rate_plan_amended (s : ℕ) (m : ℚ) :
    rate_plan s m =
      (min I2S_PDM_MAX_RATE (max I2S_PDM_MIN_RATE (⌊(s : ℚ) * m⌋).toNat),
       if I2S_PDM_MAX_RATE < (⌊(s : ℚ) * m⌋).toNat then
         (((⌊(s : ℚ) * m⌋).toNat : ℚ)) / (I2S_PDM_MAX_RATE : ℚ)
       else 1) := by
  unfold rate_plan I2S_PDM_MAX_RATE I2S_PDM_MIN_RATE
  split_ifs with hgt hlt <;>
    refine Prod.ext ?_ ?_ <;> simp_all <;> omega

/-- Claim C5: when the decimation factor equals 1 the chunk handed to the
sink is identical in contents and length to the chunk read from the
source, and the skip counters are untouched. -/
theorem fast_path_verbatim (chunk : List ℤ) :
    processChunk chunk 1 = (chunk, 0, 0) := by
  norm_num [processChunk]

/-- Claim C10: play_wav never modifies the process-wide playback speed:
for every environment and every starting state, the speed read back after
the call equals the speed before it, whatever the outcome. -/
theorem play_preserves_speed (st : EngineState) (env : PlayEnv) :
    get_playback_speed (play_wav st env).2 = get_playback_speed st := by
  unfold play_wav play_configured get_playback_speed
  split_ifs <;> rfl

/-- Claim C8: the stream descriptor depends only on header bytes 22-27 and
34-35, read little endian at those fixed offsets, and the sink slot mode
is stereo exactly when the extracted channel count equals 2. -/
theorem header_fixed_offsets (h1 h2 : List ℕ)
    (e22 : h1.getD 22 0 = h2.getD 22 0) (e23 : h1.getD 23 0 = h2.getD 23 0)
    (e24 : h1.getD 24 0 = h2.getD 24 0) (e25 : h1.getD 25 0 = h2.getD 25 0)
    (e26 : h1.getD 26 0 = h2.getD 26 0) (e27 : h1.getD 27 0 = h2.getD 27 0)
    (e34 : h1.getD 34 0 = h2.getD 34 0) (e35 : h1.getD 35 0 = h2.getD 35 0) :
    parse_header h1 = parse_header h2 ∧
      (slot_mode_of (parse_channels h1) = SlotMode.stereo ↔
        parse_channels h1 = 2) := by
  constructor
  · unfold parse_header parse_channels parse_rate parse_bits
    rw [e22, e23, e24, e25, e26, e27, e34, e35]
  · unfold slot_mode_of
    split_ifs with h <;> simp [h]

/-- A 44 byte header declaring two 16-bit channels at 44100 Hz. -/
def headerA : List ℕ :=
  List.replicate 22 0 ++ [2, 0, 68, 172, 0, 0] ++ List.replicate 6 0 ++
    [16, 0] ++ List.replicate 8 0

/-- The same header with an unrelated byte (offset 0) changed. -/
def headerB : List ℕ :=
  99 :: (List.replicate 21 0 ++ [2, 0, 68, 172, 0, 0] ++ List.replicate 6 0 ++
    [16, 0] ++ List.replicate 8 0)

/-- Witness for claim C8 on two concrete headers that differ only outside
the parsed offsets. -/
theorem header_fixed_offsets_w :
    parse_header headerA = parse_header headerB ∧
      (slot_mode_of (parse_channels headerA) = SlotMode.stereo ↔
        parse_channels headerA = 2) :=
  header_fixed_offsets headerA headerB (by decide) (by decide) (by decide)
    (by decide) (by decide) (by decide) (by decide) (by decide)

/-- Claim C7: when the source provides fewer than 44 header bytes,
play_wav closes the file and returns ESP_FAIL before any rate plan is
computed and before any sink channel is created. -/
theorem truncated_header_rejected (st : EngineState) (env : PlayEnv)
    (hsd : env.sdOk = true) (hop : env.fopenOk = true)
    (hlen : env.fileBytes.length < 44) :
    (play_wav st env).1.ret = EspErr.fail ∧
    (play_wav st env).1.fileClosed = true ∧
    (play_wav st env).1.channelCreated = false ∧
    (play_wav st env).1.ratePlanDone = false := by
  unfold play_wav
  simp [hsd, hop, hlen]

/-- Environment with a 30 byte file, for the C7 witness. -/
def envTrunc : PlayEnv := ⟨true, true, List.replicate 30 0, [], true, fun _ => true⟩

/-- Witness for claim C7 on a header truncated to 30 bytes. -/
theorem truncated_header_rejected_w :
    (play_wav ⟨1, false⟩ envTrunc).1.ret = EspErr.fail ∧
    (play_wav ⟨1, false⟩ envTrunc).1.fileClosed = true ∧
    (play_wav ⟨1, false⟩ envTrunc).1.channelCreated = false ∧
    (play_wav ⟨1, false⟩ envTrunc).1.ratePlanDone = false :=
  truncated_header_rejected ⟨1, false⟩ envTrunc rfl rfl (by decide)

/-- Claim C6: when the 44 byte header declares a bit depth other than 16,
play_wav closes the file and returns ESP_ERR_NOT_SUPPORTED, and no sink
channel is ever created. -/
theorem unsupported_bits_rejected (st : EngineState) (env : PlayEnv)
    (hsd : env.sdOk = true) (hop : env.fopenOk = true)
    (hlen : 44 ≤ env.fileBytes.length)
    (hbits : parse_bits env.fileBytes ≠ 16) :
    (play_wav st env).1.ret = EspErr.notSupported ∧
    (play_wav st env).1.fileClosed = true ∧
    (play_wav st env).1.channelCreated = false := by
  have h44 : ¬ (env.fileBytes.length < 44) := by omega
  unfold play_wav
  simp [hsd, hop, h44, hbits]

/-- A 44 byte header declaring 8 bits per sample. -/
def header8 : List ℕ :=
  List.replicate 34 0 ++ [8, 0] ++ List.replicate 8 0

/-- Environment delivering an 8-bit header, for the C6 witness. -/
def env8 : PlayEnv := ⟨true, true, header8, [], true, fun _ => true⟩

/-- Witness for claim C6 on a concrete header with bit depth 8. -/
theorem unsupported_bits_rejected_w :
    (play_wav ⟨1, false⟩ env8).1.ret = EspErr.notSupported ∧
    (play_wav ⟨1, false⟩ env8).1.fileClosed = true ∧
    (play_wav ⟨1, false⟩ env8).1.channelCreated = false :=
  unsupported_bits_rejected ⟨1, false⟩ env8 rfl rfl (by decide) (by decide)

/-- A valid 44 byte 16-bit header, used to reach the buffer allocation. -/
def header16 : List ℕ :=
  List.replicate 34 0 ++ [16, 0] ++ List.replicate 8 0

/-- Environment whose chunk buffer allocation fails after the channel has
been configured. -/
def envNoMem : PlayEnv := ⟨true, true, header16, [], false, fun _ => true⟩

/-- Claim C1 fails on the code: when the chunk buffer allocation fails
after the I2S channel has been created and configured, play_wav closes
the file and returns ESP_ERR_NO_MEM but never deletes the channel, so the
channel is not released on that error exit. -/
theorem calloc_failure_leaks_channel :
    (play_wav ⟨1, false⟩ envNoMem).1.ret = EspErr.noMem ∧
    (play_wav ⟨1, false⟩ envNoMem).1.channelCreated = true ∧
    (play_wav ⟨1, false⟩ envNoMem).1.channelReleased = false ∧
    (play_wav ⟨1, false⟩ envNoMem).1.fileClosed = true ∧
    (play_wav ⟨1, false⟩ envNoMem).2.tx_active = true :=
  ⟨rfl, rfl, rfl, rfl, rfl⟩

/-- Write-cursor count of the decimation loop: starting at frame position
w * fsr with write cursor w and enough fuel, the loop finishes with the
cursor at the larger of w and the ceiling of n / fsr. -/
lemma frameLoop_w_eq (fsr : ℚ) (hr : 1 ≤ fsr) (n : ℕ) :
    ∀ (fuel w : ℕ) (fp : ℚ) (arr : List ℤ), fp = (w : ℚ) * fsr →
      n ≤ w + fuel →
      (frameLoop fsr n fuel fp w arr).2.1 = max w (⌈(n : ℚ) / fsr⌉).toNat := by
  have hpos : (0 : ℚ) < fsr := lt_of_lt_of_le one_pos hr
  intro fuel
  induction fuel with
  | zero =>
    intro w fp arr hfp hw
    have hc : ⌈(n : ℚ) / fsr⌉ ≤ (n : ℤ) := by
      rw [Int.ceil_le]
      push_cast
      exact div_le_self (by positivity) hr
    simp only [frameLoop]
    omega
  | succ fuel ih =>
    intro w fp arr hfp hw
    by_cases hlt : fp < (n : ℚ)
    · have hfp0 : (0 : ℚ) ≤ fp := by rw [hfp]; positivity
      have hfl0 : (0 : ℤ) ≤ ⌊fp⌋ := Int.floor_nonneg.mpr hfp0
      have hfln : ⌊fp⌋ < (n : ℤ) := by
        rw [Int.floor_lt]
        push_cast
        exact hlt
      have hidx : (⌊fp⌋).toNat < n := by omega
      have hstep : fp + fsr = ((w + 1 : ℕ) : ℚ) * fsr := by
        rw [hfp]; push_cast; ring
      have hwlt : w + 1 ≤ (⌈(n : ℚ) / fsr⌉).toNat := by
        have hq : ((w : ℚ)) < (n : ℚ) / fsr := by
          rw [lt_div_iff₀ hpos, ← hfp]
          exact hlt

        have hz : (w : ℤ) < ⌈(n : ℚ) / fsr⌉ := by
          rw [Int.lt_ceil]
          push_cast
          exact hq
        omega
      rw [frameLoop, if_pos hlt, if_pos hidx]
      dsimp only
      rw [ih (w + 1) (fp + fsr) _ hstep (by omega)]
      omega
    · rw [frameLoop, if_neg hlt]
      have hq : (n : ℚ) / fsr ≤ (w : ℚ) := by
        rw [div_le_iff₀ hpos, ← hfp]
        exact not_lt.mp hlt
      have hz : ⌈(n : ℚ) / fsr⌉ ≤ (w : ℤ) := by
        rw [Int.ceil_le]
        push_cast
        exact hq
      dsimp only
      omega

/-- Per-iteration safety of the decimation loop: with a skip factor of at
least 1 and a buffer whose suffix from the write cursor on still holds the
original samples, every logged iteration passed its bounds guard, read at
or beyond the write cursor, read inside the chunk, and copied an original
sample value. -/
lemma frameLoop_trace_safe (fsr : ℚ) (hr : 1 ≤ fsr) (n : ℕ) (orig : List ℤ) :
    ∀ (fuel w : ℕ) (fp : ℚ) (arr : List ℤ), fp = (w : ℚ) * fsr →
      (∀ i, w ≤ i → arr.getD i 0 = orig.getD i 0) →
      ∀ e ∈ (frameLoop fsr n fuel fp w arr).2.2,
        e.guard = true ∧ e.w ≤ e.idx ∧ e.idx < n ∧
          e.val = orig.getD e.idx 0 := by
  have hpos : (0 : ℚ) < fsr := lt_of_lt_of_le one_pos hr
  intro fuel
  induction fuel with
  | zero =>
    intro w fp arr hfp hinv e he
    simp [frameLoop] at he
  | succ fuel ih =>
    intro w fp arr hfp hinv e he
    by_cases hlt : fp < (n : ℚ)
    · have hfp0 : (0 : ℚ) ≤ fp := by rw [hfp]; positivity
      have hfl0 : (0 : ℤ) ≤ ⌊fp⌋ := Int.floor_nonneg.mpr hfp0
      have hfln : ⌊fp⌋ < (n : ℤ) := by
        rw [Int.floor_lt]
        push_cast
        exact hlt
      have hidx : (⌊fp⌋).toNat < n := by omega
      have hwle : w ≤ (⌊fp⌋).toNat := by
        have hq : ((w : ℤ) : ℚ) ≤ fp := by
          rw [hfp]
          push_cast
          exact le_mul_of_one_le_right (by positivity) hr
        have hz : (w : ℤ) ≤ ⌊fp⌋ := Int.le_floor.mpr hq
        omega
      have hstep : fp + fsr = ((w + 1 : ℕ) : ℚ) * fsr := by
        rw [hfp]; push_cast; ring
      rw [frameLoop, if_pos hlt, if_pos hidx] at he
      dsimp only at he
      rcases List.mem_cons.mp he with he | he
      · subst he
        exact ⟨rfl, hwle, hidx, hinv _ hwle⟩
      · have hinv2 : ∀ i, w + 1 ≤ i →
            (arr.set w (arr.getD (⌊fp⌋).toNat 0)).getD i 0 = orig.getD i 0 := by
          intro i hi
          rw [getD_set_ne _ _ _ _ _ (by omega)]
          exact hinv i (by omega)
        exact ih (w + 1) (fp + fsr) _ hstep hinv2 e he
    · rw [frameLoop, if_neg hlt] at he
      simp at he

/-- Claim C4: for a skip factor above 1 and any chunk, the number of
samples written plus the number skipped equals the chunk length, and the
written count lies between floor(length / factor) and that floor plus 1. -/
theorem decimation_chunk_counts (chunk : List ℤ) (fsr : ℚ) (h1 : 1 < fsr) :
    (processChunk chunk fsr).2.1 + (processChunk chunk fsr).2.2 = chunk.length ∧
    (⌊(chunk.length : ℚ) / fsr⌋).toNat ≤ (processChunk chunk fsr).2.1 ∧
    (processChunk chunk fsr).2.1 ≤ (⌊(chunk.length : ℚ) / fsr⌋).toNat + 1 := by
  have hr : 1 ≤ fsr := le_of_lt h1
  have hw := frameLoop_w_eq fsr hr chunk.length chunk.length 0 0 chunk
    (by push_cast; ring) (by omega)
  unfold processChunk
  rw [if_pos h1]
  dsimp only
  rw [hw]
  have hfl0 : (0 : ℤ) ≤ ⌊(chunk.length : ℚ) / fsr⌋ :=
    Int.floor_nonneg.mpr (by positivity)
  have hfc : ⌊(chunk.length : ℚ) / fsr⌋ ≤ ⌈(chunk.length : ℚ) / fsr⌉ :=
    Int.floor_le_ceil _
  have hcf : ⌈(chunk.length : ℚ) / fsr⌉ ≤ ⌊(chunk.length : ℚ) / fsr⌋ + 1 :=
    Int.ceil_le_floor_add_one _
  have hcn : ⌈(chunk.length : ℚ) / fsr⌉ ≤ (chunk.length : ℤ) := by
    rw [Int.ceil_le]
    push_cast
    exact div_le_self (by positivity) hr
  refine ⟨?_, ?_, ?_⟩ <;> omega

/-- Witness for claim C4 on a five sample chunk at skip factor 5/2. -/
theorem decimation_chunk_counts_w :
    (processChunk [1, 2, 3, 4, 5] (5/2)).2.1 +
        (processChunk [1, 2, 3, 4, 5] (5/2)).2.2 =
      ([1, 2, 3, 4, 5] : List ℤ).length ∧
    (⌊(([1, 2, 3, 4, 5] : List ℤ).length : ℚ) / (5/2)⌋).toNat ≤
      (processChunk [1, 2, 3, 4, 5] (5/2)).2.1 ∧
    (processChunk [1, 2, 3, 4, 5] (5/2)).2.1 ≤
      (⌊(([1, 2, 3, 4, 5] : List ℤ).length : ℚ) / (5/2)⌋).toNat + 1 :=
  decimation_chunk_counts [1, 2, 3, 4, 5] (5/2) (by norm_num)

/-- Claim C9: during in-place compaction of a chunk with skip factor at
least 1 that fits the buffer, every iteration passes its bounds guard, the
write cursor never exceeds the read index, the read index stays below the
chunk sample count and below the buffer capacity, and every copied value
is an original source sample. -/
theorem decimation_inplace_safety (chunk : List ℤ) (fsr : ℚ) (hr : 1 ≤ fsr)
    (hcap : chunk.length ≤ AUDIO_BUFFER) :
    ∀ e ∈ (frameLoop fsr chunk.length chunk.length 0 0 chunk).2.2,
      e.guard = true ∧ e.w ≤ e.idx ∧ e.idx < chunk.length ∧
        e.idx < AUDIO_BUFFER ∧ e.val = chunk.getD e.idx 0 := by
  intro e he
  have h := frameLoop_trace_safe fsr hr chunk.length chunk chunk.length 0 0
    chunk (by push_cast; ring) (fun i _ => rfl) e he
  exact ⟨h.1, h.2.1, h.2.2.1, lt_of_lt_of_le h.2.2.1 hcap, h.2.2.2⟩

/-- Witness for claim C9 at the second logged iteration of compacting the
four sample chunk 5, 6, 7, 8 with skip factor 2: write cursor 1 reads
index 2 and copies the original sample 7. -/
theorem decimation_inplace_safety_w :
    (⟨1, 2, true, 7⟩ : IterLog).guard = true ∧
    (⟨1, 2, true, 7⟩ : IterLog).w ≤ (⟨1, 2, true, 7⟩ : IterLog).idx ∧
    (⟨1, 2, true, 7⟩ : IterLog).idx < ([5, 6, 7, 8] : List ℤ).length ∧
    (⟨1, 2, true, 7⟩ : IterLog).idx < AUDIO_BUFFER ∧
    (⟨1, 2, true, 7⟩ : IterLog).val =
      ([5, 6, 7, 8] : List ℤ).getD (⟨1, 2, true, 7⟩ : IterLog).idx 0 :=
  decimation_inplace_safety [5, 6, 7, 8] 2 (by norm_num) (by decide)
    ⟨1, 2, true, 7⟩ (by norm_num [frameLoop]; exact ⟨rfl, rfl⟩)

end Speaker
